import Mathlib

/-!
Verification development for the Kalshi auto-trading engine.

The definitions below are a shallow embedding of the Python sources:
  * `core/trading.py`  — probability utilities, calibration, Kelly fraction,
    performance metrics;
  * `automation/auto_trader.py` — the edge/cost model, position sizing,
    exit evaluation, position close, and the trading cycle;
  * `ops/gate_metrics.py` — execution-cost summary, ticker concentration,
    trailing expectancy, and the composite go-live gate.

Python floats are embedded as `ℚ` (exact rational arithmetic), integer
cents as `ℤ`, side-effecting collaborators (order submission, market data,
wall clock) as explicit parameters, and Python dictionaries keyed by
ticker as association lists / lookup functions.  `int(x)` truncation,
`round(x)` (half-to-even) and `//` (floor division) are modelled exactly.
-/

namespace Kalshi

/-- Python `clamp_probability` from `core/trading.py`: clamp into [0, 1]. -/
def clamp_probability (value : ℚ) : ℚ :=
  max 0 (min 1 value)

/-- Input universe of `to_probability`: Python `None`, a value that fails
`float(raw)`, a float NaN, or an ordinary numeric value. -/
inductive RawPrice where
  | missing : RawPrice
  | nonNumeric : RawPrice
  | nan : RawPrice
  | num : ℚ → RawPrice
deriving DecidableEq

/-- Python `to_probability` from `core/trading.py`: convert mixed price
formats (probability, cents, basis points) into probability units. -/
def to_probability : RawPrice → Option ℚ
  | .missing => none
  | .nonNumeric => none
  | .nan => none
  | .num value =>
    if value < 0 then none
    else if value ≤ 1 then some (clamp_probability value)
    else if value ≤ 100 then some (clamp_probability (value / 100))
    else if value ≤ 10000 then some (clamp_probability (value / 10000))
    else none

/-- Python `round` on a rational value: round half to even. -/
def round_half_even (q : ℚ) : ℤ :=
  let f := Rat.floor q
  let frac := q - f
  if frac < 1 / 2 then f
  else if 1 / 2 < frac then f + 1
  else if f % 2 = 0 then f else f + 1

/-- Python `int(x)` on a rational value: truncation toward zero. -/
def py_int_of_rat (q : ℚ) : ℤ :=
  if q < 0 then -(Rat.floor (-q)) else Rat.floor q

/-- Python `probability_to_cents` from `core/trading.py`. -/
def probability_to_cents (probability : ℚ) : ℤ :=
  round_half_even (clamp_probability probability * 100)

/-- Python `compute_binary_kelly` from `core/trading.py`. -/
def compute_binary_kelly (win_probability price_probability : ℚ) : ℚ :=
  let p := clamp_probability win_probability
  let c := clamp_probability price_probability
  if c ≤ 0 ∨ 1 ≤ c then 0
  else max 0 ((p - c) / (1 - c))

/-- Lexicographic order on pairs, as used by Python `sorted` on 2-tuples. -/
def pair_le (a b : ℚ × ℚ) : Prop :=
  a.1 < b.1 ∨ (a.1 = b.1 ∧ a.2 ≤ b.2)

instance : DecidableRel pair_le := fun _a _b =>
  inferInstanceAs (Decidable (_ ∨ _))

/-- The `for idx in range(1, len(ordered))` loop of
`apply_probability_calibration`: scan adjacent bin pairs and linearly
interpolate inside the first bracketing interval; fall through to the
clamped input probability if no interval matches. -/
def calibration_interp_loop (p : ℚ) : ℚ × ℚ → List (ℚ × ℚ) → ℚ
  | _, [] => p
  | left, right :: rest =>
    if left.1 ≤ p ∧ p ≤ right.1 then
      if right.1 - left.1 ≤ 1 / 1000000000 then right.2
      else clamp_probability (left.2 + (p - left.1) / (right.1 - left.1) * (right.2 - left.2))
    else calibration_interp_loop p right rest

/-- Python `apply_probability_calibration` from `core/trading.py`:
piecewise-linear probability calibration, clamped at the extremes. -/
def apply_probability_calibration (probability : ℚ) (calibration_bins : List (ℚ × ℚ)) : ℚ :=
  let p := clamp_probability probability
  match calibration_bins with
  | [] => p
  | _ :: _ =>
    let ordered := List.insertionSort pair_le
      (calibration_bins.map fun rc => (clamp_probability rc.1, clamp_probability rc.2))
    match ordered with
    | [] => p
    | first :: rest =>
      if p ≤ first.1 then first.2
      else
        let lastPair := (first :: rest).getLastD first
        if lastPair.1 ≤ p then lastPair.2
        else calibration_interp_loop p first rest

/-- Contract side. -/
inductive Side where
  | yes : Side
  | no : Side
deriving DecidableEq

/-- Python `MarketQuote` dataclass from `core/trading.py` (post-construction
view: the claims in scope consume already-built quotes). -/
structure MarketQuote where
  ticker : String
  title : String
  category : String
  volume : ℚ
  yes_bid : Option ℚ
  yes_ask : Option ℚ
  no_bid : Option ℚ
  no_ask : Option ℚ
deriving DecidableEq

/-- Python `MarketQuote.entry_price`. -/
def MarketQuote.entry_price (q : MarketQuote) : Side → Option ℚ
  | .yes => q.yes_ask
  | .no => q.no_ask

/-- Python `MarketQuote.exit_price`. -/
def MarketQuote.exit_price (q : MarketQuote) : Side → Option ℚ
  | .yes => q.yes_bid
  | .no => q.no_bid

/-- Python `MarketQuote.spread`. -/
def MarketQuote.spread (q : MarketQuote) : Side → Option ℚ
  | .yes =>
    match q.yes_bid, q.yes_ask with
    | some b, some a => some (max 0 (a - b))
    | _, _ => none
  | .no =>
    match q.no_bid, q.no_ask with
    | some b, some a => some (max 0 (a - b))
    | _, _ => none

/-- Python `AlphaSignal` dataclass from `core/trading.py` (the fields the
trading engine reads). -/
structure AlphaSignal where
  fair_yes_probability : ℚ
  confidence : ℚ
  source : String
deriving DecidableEq

/-- Python `TraderConfig` dataclass from `automation/auto_trader.py`
(the fields the core decision path reads). -/
structure TraderConfig where
  enabled : Bool
  paper_mode : Bool
  paper_bankroll_usd : ℚ
  max_position_usd : ℚ
  min_position_usd : ℚ
  max_daily_trades : ℤ
  max_total_exposure_usd : ℚ
  min_signal_confidence : ℚ
  min_edge : ℚ
  min_net_edge : ℚ
  max_spread : ℚ
  min_volume : ℚ
  fee_per_contract_prob : ℚ
  slippage_spread_factor : ℚ
  kelly_fraction : ℚ
  take_profit_pct : ℚ
  stop_loss_pct : ℚ
  max_holding_minutes : ℤ
deriving DecidableEq

/-- Python `TraderConfig.max_position_cents` (`int(round(usd * 100))`). -/
def TraderConfig.max_position_cents (c : TraderConfig) : ℤ :=
  round_half_even (c.max_position_usd * 100)

/-- Python `TraderConfig.min_position_cents`. -/
def TraderConfig.min_position_cents (c : TraderConfig) : ℤ :=
  round_half_even (c.min_position_usd * 100)

/-- Python `TraderConfig.max_total_exposure_cents`. -/
def TraderConfig.max_total_exposure_cents (c : TraderConfig) : ℤ :=
  round_half_even (c.max_total_exposure_usd * 100)

/-- Python `TraderConfig.paper_bankroll_cents`. -/
def TraderConfig.paper_bankroll_cents (c : TraderConfig) : ℤ :=
  round_half_even (c.paper_bankroll_usd * 100)

/-- Result dictionary of `KalshiAutoTrader._compute_edge`. -/
structure Candidate where
  ticker : String
  title : String
  side : Side
  gross_edge : ℚ
  cost_estimate : ℚ
  net_edge : ℚ
  entry_probability : ℚ
  entry_price_cents : ℤ
  spread : ℚ
  volume : ℚ
  fair_yes_probability : ℚ
  signal_confidence : ℚ
  source : String
  score : ℚ
  win_probability : ℚ
deriving DecidableEq

/-- Python `KalshiAutoTrader._compute_edge` from `automation/auto_trader.py`:
the Edge & Cost Model.  Requires entry prices on both sides, picks the side
with the larger edge (ties favor yes), applies the fee/slippage cost model
and the configured rejection gates in source order. -/
def compute_edge (cfg : TraderConfig) (quote : MarketQuote) (signal : AlphaSignal) :
    Option Candidate :=
  match quote.entry_price Side.yes, quote.entry_price Side.no with
  | some yes_entry, some no_entry =>
    let edge_yes := signal.fair_yes_probability - yes_entry
    let edge_no := (1 - signal.fair_yes_probability) - no_entry
    let side := if edge_no ≤ edge_yes then Side.yes else Side.no
    let edge := if edge_no ≤ edge_yes then edge_yes else edge_no
    let entry_probability := if edge_no ≤ edge_yes then yes_entry else no_entry
    let win_probability :=
      if edge_no ≤ edge_yes then signal.fair_yes_probability
      else 1 - signal.fair_yes_probability
    match quote.spread side with
    | none => none
    | some spread =>
      let round_trip_cost := 2 * cfg.fee_per_contract_prob + spread * cfg.slippage_spread_factor
      let net_edge := edge - round_trip_cost
      if edge < cfg.min_edge then none
      else if net_edge < cfg.min_net_edge then none
      else if cfg.max_spread < spread then none
      else if quote.volume < cfg.min_volume then none
      else if signal.confidence < cfg.min_signal_confidence then none
      else
        let spread_penalty := if 0 < cfg.max_spread then spread / cfg.max_spread else 0
        some {
          ticker := quote.ticker
          title := quote.title
          side := side
          gross_edge := edge
          cost_estimate := round_trip_cost
          net_edge := net_edge
          entry_probability := entry_probability
          entry_price_cents := probability_to_cents entry_probability
          spread := spread
          volume := quote.volume
          fair_yes_probability := signal.fair_yes_probability
          signal_confidence := signal.confidence
          source := signal.source
          score := net_edge * signal.confidence * max (1 / 10) (1 - spread_penalty)
          win_probability := win_probability }
  | _, _ => none

/-- Python `KalshiAutoTrader._position_size` from `automation/auto_trader.py`,
with the two state reads (`self._available_cash_cents()` and the exposure
headroom) passed explicitly.  Returns `(contracts, notional)`. -/
def position_size (cfg : TraderConfig) (available_cash remaining_exposure : ℤ)
    (candidate : Candidate) : ℤ × ℤ :=
  let entry_price_cents := candidate.entry_price_cents
  if entry_price_cents ≤ 0 then (0, 0)
  else if available_cash ≤ 0 ∨ remaining_exposure ≤ 0 then (0, 0)
  else
    let kelly := compute_binary_kelly candidate.win_probability candidate.entry_probability
    let gross_edge := max candidate.gross_edge (1 / 1000000000)
    let edge_quality := max 0 (min 1 (candidate.net_edge / gross_edge))
    let adjusted_fraction := kelly * cfg.kelly_fraction * candidate.signal_confidence * edge_quality
    let size_from_kelly := py_int_of_rat ((available_cash : ℚ) * adjusted_fraction)
    let target0 := max cfg.min_position_cents size_from_kelly
    let target := min (min (min target0 cfg.max_position_cents) remaining_exposure) available_cash
    let contracts := Int.fdiv target entry_price_cents
    if contracts < 1 then (0, 0)
    else
      let notional := contracts * entry_price_cents
      if notional < cfg.min_position_cents then (0, 0)
      else (contracts, notional)

/-- Exit reasons recorded by `KalshiAutoTrader.check_exits` (the reason
strings carry the triggering threshold; the constructor identifies which
of the four trigger branches produced the exit). -/
inductive ExitReason where
  | takeProfit : ExitReason
  | stopLoss : ExitReason
  | timeStop : ExitReason
  | edgeReversal : ExitReason
deriving DecidableEq

/-- Open-position record built by `KalshiAutoTrader._open_position`.
`opened_at` is the parsed timestamp in seconds (`none` models a record
whose timestamp `parse_timestamp` cannot parse). -/
structure Position where
  position_id : String
  ticker : String
  side : Side
  count : ℤ
  entry_price_cents : ℤ
  entry_edge : ℚ
  entry_gross_edge : ℚ
  entry_cost_estimate : ℚ
  entry_fair_yes_probability : ℚ
  entry_win_probability : ℚ
  signal_confidence : ℚ
  opened_at : Option ℚ
  notional_cents : ℤ
  source : String
  order_id : String
deriving DecidableEq

/-- Closed-trade record (`KalshiAutoTrader._close_position` output and the
gate input).  The three entry-telemetry fields are optional because
legacy state files may lack those keys (`ops/gate_metrics.py` probes key
presence). -/
structure ClosedTrade where
  ticker : String
  side : Side
  count : ℤ
  entry_price_cents : ℤ
  exit_price_cents : ℤ
  notional_cents : ℚ
  pnl_cents : ℚ
  pnl_pct : ℚ
  entry_edge : Option ℚ
  entry_gross_edge : Option ℚ
  entry_cost_estimate : Option ℚ
  entry_fair_yes_probability : ℚ
  entry_win_probability : ℚ
  signal_confidence : ℚ
  opened_at : Option ℚ
  closed_at : Option ℚ
  exit_reason : ExitReason
  entry_order_id : Option String
  exit_order_id : Option String
deriving DecidableEq

/-- Mutable fields of `KalshiAutoTrader` (the `TraderState` aggregate). -/
structure TraderState where
  current_day : String
  daily_trades : ℤ
  positions : List Position
  closed_positions : List ClosedTrade
  total_exposure_cents : ℤ
  total_pnl_cents : ℚ
  paper_cash_cents : ℤ
deriving DecidableEq

/-- External order/balance collaborator (`core/client.py` boundary) plus the
synthetic-id source (`uuid.uuid4()` in the source, opaque to every claim). -/
structure ClientOracle where
  authenticated : Bool
  balance : ℤ
  create_order : String → String → Side → ℤ → Bool × String
  next_order_id : String
  next_position_id : String

/-- Python `KalshiAutoTrader._submit_order`. -/
def submit_order (cfg : TraderConfig) (oracle : ClientOracle)
    (action : String) (ticker : String) (side : Side) (count : ℤ) : Bool × String :=
  if count ≤ 0 then (false, "invalid_count")
  else if cfg.paper_mode then (true, oracle.next_order_id)
  else if ¬oracle.authenticated then (false, "client_not_authenticated")
  else oracle.create_order action ticker side count

/-- Python `KalshiAutoTrader._available_cash_cents`. -/
def available_cash_cents (cfg : TraderConfig) (oracle : ClientOracle) (st : TraderState) : ℤ :=
  if cfg.paper_mode then max 0 st.paper_cash_cents else max 0 oracle.balance

/-- Python `KalshiAutoTrader._has_open_position`. -/
def has_open_position (st : TraderState) (ticker : String) : Bool :=
  st.positions.any fun pos => pos.ticker == ticker

/-- Python `KalshiAutoTrader._close_position`: submit the exit order; on
failure leave the state untouched and report `false`; on success append
the `ClosedTrade`, update realized PnL, exposure and (paper) cash. -/
def close_position (cfg : TraderConfig) (oracle : ClientOracle) (now : ℚ)
    (st : TraderState) (position : Position) (exit_price_cents : ℤ) (reason : ExitReason) :
    TraderState × Bool :=
  let submitted := submit_order cfg oracle "sell" position.ticker position.side position.count
  if ¬submitted.1 then (st, false)
  else
    let entry_notional := position.entry_price_cents * position.count
    let exit_value := exit_price_cents * position.count
    let pnl_cents := exit_value - entry_notional
    let pnl_pct : ℚ := if 0 < entry_notional then (pnl_cents : ℚ) / (entry_notional : ℚ) else 0
    let closed : ClosedTrade := {
      ticker := position.ticker
      side := position.side
      count := position.count
      entry_price_cents := position.entry_price_cents
      exit_price_cents := exit_price_cents
      notional_cents := (entry_notional : ℚ)
      pnl_cents := (pnl_cents : ℚ)
      pnl_pct := pnl_pct
      entry_edge := some position.entry_edge
      entry_gross_edge := some position.entry_gross_edge
      entry_cost_estimate := some position.entry_cost_estimate
      entry_fair_yes_probability := position.entry_fair_yes_probability
      entry_win_probability := position.entry_win_probability
      signal_confidence := position.signal_confidence
      opened_at := position.opened_at
      closed_at := some now
      exit_reason := reason
      entry_order_id := some position.order_id
      exit_order_id := some submitted.2 }
    ({ st with
        closed_positions := st.closed_positions ++ [closed]
        total_pnl_cents := st.total_pnl_cents + (pnl_cents : ℚ)
        total_exposure_cents := max 0 (st.total_exposure_cents - entry_notional)
        paper_cash_cents :=
          if cfg.paper_mode then st.paper_cash_cents + exit_value else st.paper_cash_cents },
      true)

/-- Python `KalshiAutoTrader._current_edge_for_position`. -/
def current_edge_for_position (position : Position) (quote : MarketQuote)
    (signals : String → Option AlphaSignal) : Option ℚ :=
  match signals position.ticker with
  | none => none
  | some signal =>
    match position.side with
    | .yes =>
      match quote.exit_price .yes with
      | none => none
      | some r => some (signal.fair_yes_probability - r)
    | .no =>
      match quote.exit_price .no with
      | none => none
      | some r => some ((1 - signal.fair_yes_probability) - r)

/-- Mark-to-market return of an open position at an exit price, as computed
inside the `KalshiAutoTrader.check_exits` loop:
`(mark_value - entry_notional) / entry_notional` (0 on a degenerate
notional). -/
def mark_pnl_pct (position : Position) (exit_price_cents : ℤ) : ℚ :=
  let entry_notional := position.entry_price_cents * position.count
  let mark_value := exit_price_cents * position.count
  if 0 < entry_notional then ((mark_value : ℚ) - (entry_notional : ℚ)) / (entry_notional : ℚ)
  else 0

/-- Holding duration in minutes, as computed inside
`KalshiAutoTrader.check_exits`: wall-clock `now` minus the parsed
`opened_at` timestamp, 0 when the timestamp does not parse. -/
def holding_minutes_of (now : ℚ) (position : Position) : ℚ :=
  match position.opened_at with
  | some t => (now - t) / 60
  | none => 0

/-- Per-position body of the `KalshiAutoTrader.check_exits` loop: the exit
decision for one open position against its quote.  `none` means the
position is held over (no exit price, or no trigger matches); otherwise
the exit price in cents and the first matching trigger, tested in source
order: take-profit, stop-loss, time-stop, edge-reversal.  `now` is the
engine's wall-clock reading (`datetime.now(timezone.utc)`), in seconds. -/
def exit_decision (cfg : TraderConfig) (now : ℚ) (signals : String → Option AlphaSignal)
    (quote : MarketQuote) (position : Position) : Option (ℤ × ExitReason) :=
  match quote.exit_price position.side with
  | none => none
  | some exit_probability =>
    let exit_price_cents := probability_to_cents exit_probability
    let pnl_pct : ℚ := mark_pnl_pct position exit_price_cents
    let holding_minutes : ℚ := holding_minutes_of now position
    if cfg.take_profit_pct ≤ pnl_pct then some (exit_price_cents, .takeProfit)
    else if pnl_pct ≤ -cfg.stop_loss_pct then some (exit_price_cents, .stopLoss)
    else if (cfg.max_holding_minutes : ℚ) ≤ holding_minutes then some (exit_price_cents, .timeStop)
    else
      match current_edge_for_position position quote signals with
      | some edge_now =>
        if edge_now < -(cfg.min_edge / 2) then some (exit_price_cents, .edgeReversal) else none
      | none => none

/-- Ticker-keyed view of a fetched quote list; the Python dict comprehension
`{quote.ticker: quote for quote in ...}` keeps the last quote per ticker. -/
def quote_lookup (quotes : List MarketQuote) (ticker : String) : Option MarketQuote :=
  quotes.reverse.find? fun q => q.ticker == ticker

/-- Python `KalshiAutoTrader.check_exits`: evaluate every open position,
close those with a matching trigger (a failed exit order keeps the
position for retry), and return the surviving state and close count. -/
def check_exits (cfg : TraderConfig) (oracle : ClientOracle) (now : ℚ)
    (signals : String → Option AlphaSignal) (quotes : List MarketQuote)
    (st : TraderState) : TraderState × ℕ :=
  if st.positions.isEmpty then (st, 0)
  else
    let step := fun (acc : TraderState × List Position × ℕ) (position : Position) =>
      let (cur, remaining, closed_count) := acc
      match quote_lookup quotes position.ticker with
      | none => (cur, remaining ++ [position], closed_count)
      | some quote =>
        match exit_decision cfg now signals quote position with
        | none => (cur, remaining ++ [position], closed_count)
        | some (exit_price_cents, reason) =>
          let attempt := close_position cfg oracle now cur position exit_price_cents reason
          if attempt.2 then (attempt.1, remaining, closed_count + 1)
          else (attempt.1, remaining ++ [position], closed_count)
    let result := st.positions.foldl step (st, ([], 0))
    ({ result.1 with positions := result.2.1 }, result.2.2)

/-- Python `KalshiAutoTrader._scan_candidates`: score every quote lacking an
open position against the signal map and sort by score descending. -/
def scan_candidates (cfg : TraderConfig) (signals : String → Option AlphaSignal)
    (quotes : List MarketQuote) (st : TraderState) : List Candidate :=
  let candidates := quotes.foldl
    (fun acc quote =>
      if has_open_position st quote.ticker then acc
      else
        match signals quote.ticker with
        | none => acc
        | some signal =>
          match compute_edge cfg quote signal with
          | some candidate => acc ++ [candidate]
          | none => acc)
    []
  List.insertionSort (fun a b => b.score ≤ a.score) candidates

/-- Python `KalshiAutoTrader._open_position`: guard on the enabled flag and
the daily cap, size the candidate, submit the entry order, then record the
position and debit exposure and (paper) cash. -/
def open_position (cfg : TraderConfig) (oracle : ClientOracle) (now : ℚ)
    (st : TraderState) (candidate : Candidate) : TraderState × Bool :=
  if ¬cfg.enabled then (st, false)
  else if cfg.max_daily_trades ≤ st.daily_trades then (st, false)
  else
    let available_cash := available_cash_cents cfg oracle st
    let remaining_exposure := cfg.max_total_exposure_cents - st.total_exposure_cents
    let sized := position_size cfg available_cash remaining_exposure candidate
    if sized.1 = 0 then (st, false)
    else
      let submitted := submit_order cfg oracle "buy" candidate.ticker candidate.side sized.1
      if ¬submitted.1 then (st, false)
      else
        let position : Position := {
          position_id := oracle.next_position_id
          ticker := candidate.ticker
          side := candidate.side
          count := sized.1
          entry_price_cents := candidate.entry_price_cents
          entry_edge := candidate.net_edge
          entry_gross_edge := candidate.gross_edge
          entry_cost_estimate := candidate.cost_estimate
          entry_fair_yes_probability := candidate.fair_yes_probability
          entry_win_probability := candidate.win_probability
          signal_confidence := candidate.signal_confidence
          opened_at := some now
          notional_cents := sized.2
          source := candidate.source
          order_id := submitted.2 }
        ({ st with
            positions := st.positions ++ [position]
            daily_trades := st.daily_trades + 1
            total_exposure_cents := st.total_exposure_cents + sized.2
            paper_cash_cents :=
              if cfg.paper_mode then st.paper_cash_cents - sized.2 else st.paper_cash_cents },
          true)

/-- Python `compute_performance_metrics` output from `core/trading.py`. -/
structure PerformanceMetrics where
  trades : ℕ
  wins : ℕ
  losses : ℕ
  win_rate : ℚ
  total_pnl_cents : ℚ
  expectancy_pct : ℚ
  profit_factor : ℚ
  max_drawdown_cents : ℚ
  avg_holding_minutes : ℚ
deriving DecidableEq

/-- Python `compute_performance_metrics` from `core/trading.py`. -/
def compute_performance_metrics (closed_positions : List ClosedTrade) : PerformanceMetrics :=
  match closed_positions with
  | [] => ⟨0, 0, 0, 0, 0, 0, 0, 0, 0⟩
  | _ :: _ =>
    let pnl_values := closed_positions.map (·.pnl_cents)
    let return_values := closed_positions.filterMap fun t =>
      if 0 < t.notional_cents then some (t.pnl_cents / t.notional_cents) else none
    let holding_minutes := closed_positions.filterMap fun t =>
      match t.opened_at, t.closed_at with
      | some o, some c => if o ≤ c then some ((c - o) / 60) else none
      | _, _ => none
    let wins := pnl_values.countP fun p => decide (0 < p)
    let losses := pnl_values.countP fun p => decide (p < 0)
    let gross_profit := (pnl_values.filter fun p => decide (0 < p)).sum
    let gross_loss := |(pnl_values.filter fun p => decide (p < 0)).sum|
    let dd := pnl_values.foldl
      (fun (acc : ℚ × ℚ × ℚ) pnl =>
        let equity := acc.1 + pnl
        let peak := max acc.2.1 equity
        (equity, peak, max acc.2.2 (peak - equity)))
      (0, 0, 0)
    let profit_factor :=
      if 0 < gross_loss then gross_profit / gross_loss
      else if 0 < gross_profit then gross_profit
      else 0
    let expectancy :=
      if return_values.isEmpty then 0 else return_values.sum / (return_values.length : ℚ)
    let avg_holding :=
      if holding_minutes.isEmpty then 0 else holding_minutes.sum / (holding_minutes.length : ℚ)
    { trades := closed_positions.length
      wins := wins
      losses := losses
      win_rate := (wins : ℚ) / (closed_positions.length : ℚ)
      total_pnl_cents := pnl_values.sum
      expectancy_pct := expectancy * 100
      profit_factor := profit_factor
      max_drawdown_cents := dd.2.2
      avg_holding_minutes := avg_holding }

/-- JSON document written by `KalshiAutoTrader.save_state` (the fields the
determinism and persistence claims observe). -/
structure PersistedState where
  schema_version : ℕ
  current_day : String
  daily_trades : ℤ
  positions : List Position
  closed_positions : List ClosedTrade
  total_exposure_cents : ℤ
  total_pnl_cents : ℚ
  paper_cash_cents : ℤ
  performance : PerformanceMetrics
deriving DecidableEq

/-- Python `KalshiAutoTrader.save_state`: whole-document snapshot with the
closed-trade list truncated to the most recent 2000 records. -/
def save_state (st : TraderState) : PersistedState := {
  schema_version := 3
  current_day := st.current_day
  daily_trades := st.daily_trades
  positions := st.positions
  closed_positions := st.closed_positions.drop (st.closed_positions.length - 2000)
  total_exposure_cents := st.total_exposure_cents
  total_pnl_cents := st.total_pnl_cents
  paper_cash_cents := st.paper_cash_cents
  performance := compute_performance_metrics st.closed_positions }

/-- Python `KalshiAutoTrader._reset_daily_counter_if_needed`. -/
def reset_daily_counter_if_needed (today : String) (st : TraderState) : TraderState :=
  if today ≠ st.current_day then { st with current_day := today, daily_trades := 0 } else st

/-- Ticker-keyed signal map (`load_alpha_signals` dict; the last entry per
ticker wins, as in a Python dict build). -/
def signal_lookup (signals : List (String × AlphaSignal)) (ticker : String) : Option AlphaSignal :=
  (signals.reverse.find? fun kv => kv.1 == ticker).map (·.2)

/-- Inputs one engine cycle consumes from the outside world: the UTC day,
the wall clock (seconds), the loaded signal file, the fetched market list
and the order-submission collaborator. -/
structure CycleEnv where
  today : String
  now : ℚ
  signals : List (String × AlphaSignal)
  quotes : List MarketQuote
  oracle : ClientOracle

/-- Observable outcome of `KalshiAutoTrader.run_cycle`: the final in-memory
state, whether the exit scan ran, how many positions closed, whether an
entry was attempted, and the document passed to `save_state`. -/
structure CycleOutcome where
  state : TraderState
  exits_evaluated : Bool
  closed_count : ℕ
  entry_attempted : Bool
  persisted : PersistedState

/-- Python `KalshiAutoTrader.run_cycle`: reset the daily counter on a UTC
day change; if the signal map is empty, persist and return; otherwise run
the exit scan, score entry candidates, attempt to open only the top-ranked
candidate, and persist. -/
def run_cycle (cfg : TraderConfig) (env : CycleEnv) (st : TraderState) : CycleOutcome :=
  let st1 := reset_daily_counter_if_needed env.today st
  let signals := signal_lookup env.signals
  if env.signals.isEmpty then
    { state := st1, exits_evaluated := false, closed_count := 0, entry_attempted := false
      persisted := save_state st1 }
  else
    let exited := check_exits cfg env.oracle env.now signals env.quotes st1
    let candidates := scan_candidates cfg signals env.quotes exited.1
    match candidates with
    | [] =>
      { state := exited.1, exits_evaluated := true, closed_count := exited.2
        entry_attempted := false, persisted := save_state exited.1 }
    | top :: _ =>
      let opened := open_position cfg env.oracle env.now exited.1 top
      { state := opened.1, exits_evaluated := true, closed_count := exited.2
        entry_attempted := true, persisted := save_state opened.1 }

/-- Python `_prob_or_none` from `ops/gate_metrics.py`. -/
def prob_or_none (raw : Option ℚ) : Option ℚ :=
  raw.bind fun v => to_probability (.num v)

/-- Per-trade net-edge / gross-edge / cost triple as derived inside the
`compute_execution_cost_summary` loop (including the gross-from-net and
cost-from-difference backfills). -/
def trade_cost_fields (t : ClosedTrade) : Option ℚ × Option ℚ × Option ℚ :=
  let net_edge := prob_or_none t.entry_edge
  let gross_edge0 := prob_or_none t.entry_gross_edge
  let gross_edge :=
    match gross_edge0, net_edge with
    | none, some n => some n
    | g, _ => g
  let cost0 := prob_or_none t.entry_cost_estimate
  let cost :=
    match cost0, gross_edge, net_edge with
    | none, some g, some n => some (max 0 (g - n))
    | c, _, _ => c
  (net_edge, gross_edge, cost)

/-- Python `compute_execution_cost_summary` output from `ops/gate_metrics.py`. -/
structure ExecutionCostSummary where
  closed_trades : ℕ
  cost_coverage_trades : ℕ
  cost_coverage_ratio : ℚ
  fee_per_contract_prob : ℚ
  slippage_spread_factor : ℚ
  avg_gross_edge : ℚ
  avg_net_edge : ℚ
  avg_round_trip_cost : ℚ
  estimated_total_cost_cents : ℚ
  total_notional_cents : ℚ
  realized_pnl_cents : ℚ
  realized_return_pct : ℚ
  estimated_cost_bps_on_notional : ℚ
deriving DecidableEq

/-- Python `compute_execution_cost_summary` from `ops/gate_metrics.py`. -/
def compute_execution_cost_summary (closed_positions : List ClosedTrade)
    (fee_per_contract_prob slippage_spread_factor : ℚ) : ExecutionCostSummary :=
  let total_notional := (closed_positions.map fun t => max 0 t.notional_cents).sum
  let total_pnl := (closed_positions.map (·.pnl_cents)).sum
  let net_edges := closed_positions.filterMap fun t => (trade_cost_fields t).1
  let gross_edges := closed_positions.filterMap fun t => (trade_cost_fields t).2.1
  let cost_estimates := closed_positions.filterMap fun t => (trade_cost_fields t).2.2
  let cost_coverage := closed_positions.countP fun t =>
    t.entry_edge.isSome || t.entry_gross_edge.isSome || t.entry_cost_estimate.isSome
  let estimated_cost := (closed_positions.map fun t =>
    match (trade_cost_fields t).2.2 with
    | some c => if 0 < t.count then c * 100 * (t.count : ℚ) else 0
    | none => 0).sum
  let avg_gross_edge := if gross_edges.isEmpty then 0 else gross_edges.sum / (gross_edges.length : ℚ)
  let avg_net_edge := if net_edges.isEmpty then 0 else net_edges.sum / (net_edges.length : ℚ)
  let avg_cost :=
    if cost_estimates.isEmpty then max 0 (avg_gross_edge - avg_net_edge)
    else cost_estimates.sum / (cost_estimates.length : ℚ)
  let total_trades := closed_positions.length
  let coverage_ratio := if 0 < total_trades then (cost_coverage : ℚ) / (total_trades : ℚ) else 0
  { closed_trades := total_trades
    cost_coverage_trades := cost_coverage
    cost_coverage_ratio := coverage_ratio
    fee_per_contract_prob := fee_per_contract_prob
    slippage_spread_factor := slippage_spread_factor
    avg_gross_edge := avg_gross_edge
    avg_net_edge := avg_net_edge
    avg_round_trip_cost := avg_cost
    estimated_total_cost_cents := estimated_cost
    total_notional_cents := total_notional
    realized_pnl_cents := total_pnl
    realized_return_pct := if 0 < total_notional then total_pnl / total_notional * 100 else 0
    estimated_cost_bps_on_notional :=
      if 0 < total_notional then estimated_cost / total_notional * 10000 else 0 }

/-- Insertion-ordered per-ticker PnL aggregation (a Python dict keyed by
ticker, accumulating `pnl_cents`). -/
def add_ticker_pnl : List (String × ℚ) → String → ℚ → List (String × ℚ)
  | [], ticker, pnl => [(ticker, pnl)]
  | (t, v) :: rest, ticker, pnl =>
    if t = ticker then (t, v + pnl) :: rest else (t, v) :: add_ticker_pnl rest ticker pnl

/-- Python `compute_ticker_concentration` output from `ops/gate_metrics.py`. -/
structure TickerConcentration where
  ticker_count : ℕ
  max_abs_pnl_cents : ℚ
  total_abs_pnl_cents : ℚ
  max_share_of_abs_pnl : ℚ
  ticker_pnl_cents : List (String × ℚ)
deriving DecidableEq

/-- Python `compute_ticker_concentration` from `ops/gate_metrics.py`. -/
def compute_ticker_concentration (closed_positions : List ClosedTrade) : TickerConcentration :=
  let by_ticker := closed_positions.foldl
    (fun acc t => if t.ticker = "" then acc else add_ticker_pnl acc t.ticker t.pnl_cents) []
  match by_ticker with
  | [] => ⟨0, 0, 0, 0, []⟩
  | (_, v0) :: rest =>
    let total_abs := (by_ticker.map fun kv => |kv.2|).sum
    let max_abs := rest.foldl (fun best kv => if best < |kv.2| then |kv.2| else best) |v0|
    let share := if 0 < total_abs then max_abs / total_abs else 0
    ⟨by_ticker.length, max_abs, total_abs, share, by_ticker⟩

/-- Python `compute_trailing_expectancy` from `ops/gate_metrics.py` for one
window size: the expectancy over the chronologically last `window` trades,
`none` when the window is non-positive (skipped) or there are too few
trades (marked insufficient). -/
def compute_trailing_expectancy (closed_positions : List ClosedTrade) (window : ℤ) : Option ℚ :=
  if window ≤ 0 then none
  else if (closed_positions.length : ℤ) < window then none
  else some (compute_performance_metrics
    (closed_positions.drop (closed_positions.length - window.toNat))).expectancy_pct

/-- Python `evaluate_go_live_gates` output from `ops/gate_metrics.py`
(each check reduced to its name and pass flag). -/
structure GateResult where
  metrics : PerformanceMetrics
  max_drawdown_pct : ℚ
  checks : List (String × Bool)
  go_live : Bool
  cost_summary : ExecutionCostSummary
  concentration : TickerConcentration

/-- Python `evaluate_go_live_gates` from `ops/gate_metrics.py`: the
composite promotion gate, a hard AND over every individual check. -/
def evaluate_go_live_gates (closed_positions : List ClosedTrade)
    (paper_bankroll : ℚ) (min_trades : ℤ)
    (min_expectancy min_profit_factor max_drawdown min_cost_coverage : ℚ)
    (holdout_windows : List ℤ)
    (max_concentration_share fee_per_contract_prob slippage_spread_factor : ℚ) : GateResult :=
  let metrics := compute_performance_metrics closed_positions
  let trades : ℤ := metrics.trades
  let max_drawdown_pct := metrics.max_drawdown_cents / max (paper_bankroll * 100) 1 * 100
  let cost_summary :=
    compute_execution_cost_summary closed_positions fee_per_contract_prob slippage_spread_factor
  let concentration := compute_ticker_concentration closed_positions
  let base_checks : List (String × Bool) := [
    ("trades", decide (min_trades ≤ trades)),
    ("expectancy_pct", decide (min_expectancy < metrics.expectancy_pct)),
    ("profit_factor", decide (min_profit_factor ≤ metrics.profit_factor)),
    ("max_drawdown_pct", decide (max_drawdown_pct ≤ max_drawdown)),
    ("cost_coverage_ratio", decide (min_cost_coverage ≤ cost_summary.cost_coverage_ratio))]
  let holdout_checks := holdout_windows.map fun w =>
    ("holdout_expectancy_" ++ toString w,
      match compute_trailing_expectancy closed_positions w with
      | some v => decide (0 < v)
      | none => false)
  let concentration_check :=
    ("max_ticker_concentration",
      decide (concentration.max_share_of_abs_pnl ≤ max_concentration_share))
  let checks := base_checks ++ holdout_checks ++ [concentration_check]
  { metrics := metrics
    max_drawdown_pct := max_drawdown_pct
    checks := checks
    go_live := checks.all (·.2)
    cost_summary := cost_summary
    concentration := concentration }

/-! ### Shared helper lemmas -/

theorem clamp_probability_nonneg (v : ℚ) : 0 ≤ clamp_probability v :=
  le_max_left 0 _

theorem clamp_probability_le_one (v : ℚ) : clamp_probability v ≤ 1 :=
  max_le (by norm_num) (min_le_left 1 v)

theorem clamp_probability_eq_self {v : ℚ} (h0 : 0 ≤ v) (h1 : v ≤ 1) :
    clamp_probability v = v := by
  unfold clamp_probability
  rw [min_eq_right h1, max_eq_right h0]

/-! ### Concrete fixtures (the unit-test scenario from
`tests/test_auto_trader_edge.py` and §8 of the specification) -/

/-- Default configuration of `TraderConfig` in `automation/auto_trader.py`. -/
def cfg0 : TraderConfig := {
  enabled := true, paper_mode := true, paper_bankroll_usd := 250,
  max_position_usd := 20, min_position_usd := 5, max_daily_trades := 12,
  max_total_exposure_usd := 150, min_signal_confidence := 65/100,
  min_edge := 3/100, min_net_edge := 15/1000, max_spread := 6/100,
  min_volume := 500, fee_per_contract_prob := 8/1000,
  slippage_spread_factor := 35/100, kelly_fraction := 25/100,
  take_profit_pct := 2/10, stop_loss_pct := 12/100, max_holding_minutes := 240 }

/-- Quote of the spec §8 scenario. -/
def quote0 : MarketQuote := {
  ticker := "KXTEST-EDGE", title := "Edge test", category := "test", volume := 5000,
  yes_bid := some (53/100), yes_ask := some (55/100),
  no_bid := some (45/100), no_ask := some (47/100) }

/-- Signal of the spec §8 scenario. -/
def signal0 : AlphaSignal :=
  { fair_yes_probability := 62/100, confidence := 85/100, source := "unit" }

/-- Candidate the Edge & Cost Model produces for `quote0`/`signal0` under
`cfg0`: yes side, 7% gross edge, 2.3% cost, 4.7% net edge. -/
def candidate0 : Candidate := {
  ticker := "KXTEST-EDGE", title := "Edge test", side := Side.yes,
  gross_edge := 7/100, cost_estimate := 23/1000, net_edge := 47/1000,
  entry_probability := 55/100, entry_price_cents := 55, spread := 2/100,
  volume := 5000, fair_yes_probability := 62/100, signal_confidence := 85/100,
  source := "unit", score := 799/30000, win_probability := 62/100 }

/-! ### C10 — `to_probability` normalization -/

/-- C10: for every input value, `to_probability` returns either `none` or a
probability in [0,1]; non-numeric, NaN and negative inputs, and numeric
inputs above 10000, return `none`; inputs in [0,1] are returned as-is,
inputs in (1,100] are divided by 100, and inputs in (100,10000] are
divided by 10000. -/
theorem to_probability_normalization :
    (∀ input : RawPrice, ∀ p ∈ to_probability input, 0 ≤ p ∧ p ≤ 1) ∧
    to_probability .missing = none ∧
    to_probability .nonNumeric = none ∧
    to_probability .nan = none ∧
    (∀ v : ℚ, v < 0 → to_probability (.num v) = none) ∧
    (∀ v : ℚ, 10000 < v → to_probability (.num v) = none) ∧
    (∀ v : ℚ, 0 ≤ v → v ≤ 1 → to_probability (.num v) = some v) ∧
    (∀ v : ℚ, 1 < v → v ≤ 100 → to_probability (.num v) = some (v / 100)) ∧
    (∀ v : ℚ, 100 < v → v ≤ 10000 → to_probability (.num v) = some (v / 10000)) := by
  refine ⟨?_, rfl, rfl, rfl, ?_, ?_, ?_, ?_, ?_⟩
  · intro input p hp
    cases input with
    | missing => simp [to_probability] at hp
    | nonNumeric => simp [to_probability] at hp
    | nan => simp [to_probability] at hp
    | num v =>
      simp only [to_probability] at hp
      split_ifs at hp
      all_goals first
        | exact Option.noConfusion (Option.mem_def.mp hp)
        | (have h2 := Option.mem_def.mp hp
           injection h2 with h3
           subst h3
           exact ⟨clamp_probability_nonneg _, clamp_probability_le_one _⟩)
  · intro v hv
    simp only [to_probability]
    rw [if_pos hv]
  · intro v hv
    simp only [to_probability]
    rw [if_neg (by linarith), if_neg (by linarith), if_neg (by linarith),
      if_neg (by linarith)]
  · intro v h0 h1
    simp only [to_probability]
    rw [if_neg (by linarith), if_pos h1, clamp_probability_eq_self h0 h1]
  · intro v h1 h100
    simp only [to_probability]
    rw [if_neg (by linarith), if_neg (by linarith), if_pos h100,
      clamp_probability_eq_self (by positivity) (by rw [div_le_one] <;> linarith)]
  · intro v h100 hbp
    simp only [to_probability]
    rw [if_neg (by linarith), if_neg (by linarith), if_neg (by linarith), if_pos hbp,
      clamp_probability_eq_self (by positivity) (by rw [div_le_one] <;> linarith)]

/-- Witness for C10 at the concrete input 0.37 (a plain probability). -/
theorem to_probability_normalization_witness :
    0 ≤ (37 : ℚ)/100 ∧ (37 : ℚ)/100 ≤ 1 ∧
    to_probability (.num (37/100)) = some (37/100) :=
  ⟨by norm_num, by norm_num,
    to_probability_normalization.2.2.2.2.2.2.1 (37/100) (by norm_num) (by norm_num)⟩

/-! ### C1 — Kelly position-sizing bounds -/

/-- C1: the position sizer always returns `notional = contracts ×
entry_price_cents`; the notional is either 0 (no trade) or at least
`min_position_cents`; and whenever a trade is returned the notional never
exceeds `min(max_position_cents, remaining_exposure, available_cash)`
(for non-negative cash, headroom and position cap — the values the engine
feeds it — this bound also covers the no-trade case). -/
theorem position_size_bounds (cfg : TraderConfig) (available_cash remaining_exposure : ℤ)
    (candidate : Candidate) :
    (position_size cfg available_cash remaining_exposure candidate).2 =
      (position_size cfg available_cash remaining_exposure candidate).1 *
        candidate.entry_price_cents ∧
    ((position_size cfg available_cash remaining_exposure candidate).2 = 0 ∨
      cfg.min_position_cents ≤ (position_size cfg available_cash remaining_exposure candidate).2) ∧
    ((position_size cfg available_cash remaining_exposure candidate).2 ≠ 0 →
      (position_size cfg available_cash remaining_exposure candidate).2 ≤ cfg.max_position_cents ∧
      (position_size cfg available_cash remaining_exposure candidate).2 ≤ remaining_exposure ∧
      (position_size cfg available_cash remaining_exposure candidate).2 ≤ available_cash) ∧
    (0 ≤ available_cash → 0 ≤ remaining_exposure → 0 ≤ cfg.max_position_cents →
      (position_size cfg available_cash remaining_exposure candidate).2 ≤ cfg.max_position_cents ∧
      (position_size cfg available_cash remaining_exposure candidate).2 ≤ remaining_exposure ∧
      (position_size cfg available_cash remaining_exposure candidate).2 ≤ available_cash) := by
  simp only [position_size]
  split_ifs with h1 h2 h3 h4
  · exact ⟨by simp, Or.inl rfl, fun h => absurd rfl h, fun _ _ _ => by simp_all⟩
  · exact ⟨by simp, Or.inl rfl, fun h => absurd rfl h, fun _ _ _ => by simp_all⟩
  · exact ⟨by simp, Or.inl rfl, fun h => absurd rfl h, fun _ _ _ => by simp_all⟩
  · exact ⟨by simp, Or.inl rfl, fun h => absurd rfl h, fun _ _ _ => by simp_all⟩
  · -- the trade branch: notional = contracts * entry ≤ target ≤ each bound
    have hentry : 0 < candidate.entry_price_cents := lt_of_not_ge h1
    have hmul : ∀ target : ℤ,
        Int.fdiv target candidate.entry_price_cents * candidate.entry_price_cents ≤ target := by
      intro target
      rw [Int.fdiv_eq_ediv target (le_of_lt hentry)]
      exact Int.ediv_mul_le target (ne_of_gt hentry)
    refine ⟨rfl, Or.inr (le_of_not_lt h4), fun _ => ?_, fun _ _ _ => ?_⟩ <;>
    · refine ⟨le_trans (hmul _) ?_, le_trans (hmul _) ?_, le_trans (hmul _) ?_⟩
      · exact le_trans (min_le_left _ _) (le_trans (min_le_left _ _) (min_le_right _ _))
      · exact le_trans (min_le_left _ _) (min_le_right _ _)
      · exact min_le_right _ _

unseal Rat.mul Rat.inv Rat.add Rat.sub in
/-- Witness for C1: the spec §8 candidate sized with $250 of cash and $150
of headroom buys 10 contracts at 55¢ (550¢ notional), inside every bound. -/
theorem position_size_bounds_witness :
    position_size cfg0 25000 15000 candidate0 = (10, 550) ∧
    (550 : ℤ) ≤ cfg0.max_position_cents ∧ (550 : ℤ) ≤ 15000 ∧ (550 : ℤ) ≤ 25000 := by
  have h := (position_size_bounds cfg0 25000 15000 candidate0).2.2.1 (by decide)
  have heq : position_size cfg0 25000 15000 candidate0 = (10, 550) := by decide
  rw [heq] at h
  exact ⟨heq, h⟩

/-! ### C6 / C8 — Edge & Cost Model gates -/

/-- Elimination form of a successful `compute_edge` run: both entry prices
and the chosen-side spread exist, every rejection gate is passed, and the
candidate's recorded `net_edge` is the computed one. -/
theorem compute_edge_some_elim {cfg : TraderConfig} {quote : MarketQuote}
    {signal : AlphaSignal} {c : Candidate}
    (h : compute_edge cfg quote signal = some c) :
    ∃ ye ne sp,
      quote.entry_price Side.yes = some ye ∧
      quote.entry_price Side.no = some ne ∧
      quote.spread (if (1 - signal.fair_yes_probability) - ne ≤
          signal.fair_yes_probability - ye then Side.yes else Side.no) = some sp ∧
      ¬((if (1 - signal.fair_yes_probability) - ne ≤ signal.fair_yes_probability - ye then
          signal.fair_yes_probability - ye else (1 - signal.fair_yes_probability) - ne) <
        cfg.min_edge) ∧
      ¬((if (1 - signal.fair_yes_probability) - ne ≤ signal.fair_yes_probability - ye then
          signal.fair_yes_probability - ye else (1 - signal.fair_yes_probability) - ne) -
          (2 * cfg.fee_per_contract_prob + sp * cfg.slippage_spread_factor) <
        cfg.min_net_edge) ∧
      ¬(cfg.max_spread < sp) ∧
      ¬(quote.volume < cfg.min_volume) ∧
      ¬(signal.confidence < cfg.min_signal_confidence) ∧
      c.net_edge =
        (if (1 - signal.fair_yes_probability) - ne ≤ signal.fair_yes_probability - ye then
          signal.fair_yes_probability - ye else (1 - signal.fair_yes_probability) - ne) -
          (2 * cfg.fee_per_contract_prob + sp * cfg.slippage_spread_factor) := by
  unfold compute_edge at h
  rcases hy : quote.entry_price Side.yes with _ | ye
  · rw [hy] at h; exact Option.noConfusion h
  rw [hy] at h
  rcases hn : quote.entry_price Side.no with _ | ne
  · rw [hn] at h; exact Option.noConfusion h
  rw [hn] at h
  dsimp only at h
  by_cases hside : (1 - signal.fair_yes_probability) - ne ≤ signal.fair_yes_probability - ye
  · simp only [if_pos hside] at h
    rcases hs : quote.spread Side.yes with _ | sp
    · rw [hs] at h; exact Option.noConfusion h
    rw [hs] at h
    dsimp only at h
    split_ifs at h with g1 g2 g3 g4 g5
    all_goals
      injection h with h2
      refine ⟨ye, ne, sp, rfl, rfl, ?_, ?_, ?_, ?_, ?_, ?_, ?_⟩ <;>
        (try simp only [if_pos hside]) <;>
        first
          | exact hs
          | exact g1
          | exact g2
          | exact g3
          | exact g4
          | exact g5
          | rw [← h2]
  · simp only [if_neg hside] at h
    rcases hs : quote.spread Side.no with _ | sp
    · rw [hs] at h; exact Option.noConfusion h
    rw [hs] at h
    dsimp only at h
    split_ifs at h with g1 g2 g3 g4 g5
    all_goals
      injection h with h2
      refine ⟨ye, ne, sp, rfl, rfl, ?_, ?_, ?_, ?_, ?_, ?_, ?_⟩ <;>
        (try simp only [if_neg hside]) <;>
        first
          | exact hs
          | exact g1
          | exact g2
          | exact g3
          | exact g4
          | exact g5
          | rw [← h2]

/-- C6 (amended): `compute_edge` returns `none` exactly when an entry price
is missing on either side, the chosen side lacks a spread, or one of the
threshold gates fails (`edge < min_edge`, `net_edge < min_net_edge`,
`spread > max_spread`, `volume < min_volume`, or
`confidence < min_signal_confidence`); a valid entry price is required on
both sides even though only the chosen side's price and spread enter the
thresholds. -/
theorem compute_edge_none_iff (cfg : TraderConfig) (quote : MarketQuote)
    (signal : AlphaSignal) :
    compute_edge cfg quote signal = none ↔
      match quote.entry_price Side.yes, quote.entry_price Side.no with
      | some yes_entry, some no_entry =>
        let edge_yes := signal.fair_yes_probability - yes_entry
        let edge_no := (1 - signal.fair_yes_probability) - no_entry
        let edge := if edge_no ≤ edge_yes then edge_yes else edge_no
        (match quote.spread (if edge_no ≤ edge_yes then Side.yes else Side.no) with
         | none => True
         | some spread =>
           edge < cfg.min_edge ∨
           edge - (2 * cfg.fee_per_contract_prob + spread * cfg.slippage_spread_factor) <
             cfg.min_net_edge ∨
           cfg.max_spread < spread ∨
           quote.volume < cfg.min_volume ∨
           signal.confidence < cfg.min_signal_confidence : Prop)
      | _, _ => True := by
  unfold compute_edge
  rcases hy : quote.entry_price Side.yes with _ | ye
  · simp
  rcases hn : quote.entry_price Side.no with _ | ne
  · simp
  dsimp only
  by_cases hside : (1 - signal.fair_yes_probability) - ne ≤ signal.fair_yes_probability - ye
  · simp only [if_pos hside]
    rcases hs : quote.spread Side.yes with _ | sp
    · simp
    dsimp only
    split_ifs with g1 g2 g3 g4 g5 <;> simp_all
  · simp only [if_neg hside]
    rcases hs : quote.spread Side.no with _ | sp
    · simp
    dsimp only
    split_ifs with g1 g2 g3 g4 g5 <;> simp_all

/-- Counterexample for C6 as frozen: a quote whose yes side has a valid
entry price and spread and passes every threshold under the default
configuration, but whose no side lacks an entry price, is rejected
(`compute_edge = none`) — the claim says a candidate should be produced. -/
def quote_missing_no : MarketQuote := {
  ticker := "KXTEST-EDGE", title := "Edge test", category := "test", volume := 5000,
  yes_bid := some (53/100), yes_ask := some (55/100),
  no_bid := none, no_ask := none }

unseal Rat.mul Rat.inv Rat.add Rat.sub in
/-- Counterexample witnessing that C6's "even if the opposite side lacks a
price" clause fails on the code. -/
theorem compute_edge_requires_both_sides_counterexample :
    quote_missing_no.entry_price Side.yes = some (55/100) ∧
    quote_missing_no.spread Side.yes = some (2/100) ∧
    cfg0.min_edge ≤ signal0.fair_yes_probability - 55/100 ∧
    cfg0.min_net_edge ≤ signal0.fair_yes_probability - 55/100 -
      (2 * cfg0.fee_per_contract_prob + (2/100) * cfg0.slippage_spread_factor) ∧
    (2/100 : ℚ) ≤ cfg0.max_spread ∧
    cfg0.min_volume ≤ quote_missing_no.volume ∧
    cfg0.min_signal_confidence ≤ signal0.confidence ∧
    quote_missing_no.entry_price Side.no = none ∧
    compute_edge cfg0 quote_missing_no signal0 = none := by
  decide

/-- C8: for a fixed quote/signal that produces a candidate, raising
`min_net_edge` strictly above the computed net edge turns the result into
`none`, and restoring the original threshold restores the identical
candidate (same numeric edges). -/
theorem min_net_edge_gate_round_trip (cfg : TraderConfig) (quote : MarketQuote)
    (signal : AlphaSignal) (c : Candidate) (x : ℚ)
    (h : compute_edge cfg quote signal = some c) (hx : c.net_edge < x) :
    compute_edge { cfg with min_net_edge := x } quote signal = none ∧
    compute_edge { { cfg with min_net_edge := x } with min_net_edge := cfg.min_net_edge }
        quote signal = some c := by
  obtain ⟨ye, ne, sp, hy, hn, hs, g1, _g2, _g3, _g4, _g5, hnet⟩ := compute_edge_some_elim h
  constructor
  · unfold compute_edge
    rw [hy, hn]
    dsimp only
    rw [hs]
    dsimp only
    rw [if_neg g1, if_pos (by rw [← hnet]; exact hx)]
  · exact h

unseal Rat.mul Rat.inv Rat.add Rat.sub in
/-- Witness for C8: the spec §8 scenario — with `min_net_edge = 0.05` the
4.7%-net-edge candidate is rejected; restoring 0.015 restores it. -/
theorem min_net_edge_gate_round_trip_witness :
    compute_edge { cfg0 with min_net_edge := 5/100 } quote0 signal0 = none ∧
    compute_edge { { cfg0 with min_net_edge := 5/100 } with min_net_edge := cfg0.min_net_edge }
        quote0 signal0 = some candidate0 :=
  min_net_edge_gate_round_trip cfg0 quote0 signal0 candidate0 (5/100)
    (by decide) (by decide)


/-! ### C3 / C9 — exit evaluation and failed exit orders -/

/-- A `close_position` call that reports failure returns the input state. -/
theorem close_position_false_eq {cfg : TraderConfig} {oracle : ClientOracle} {now : ℚ}
    {st : TraderState} {position : Position} {cents : ℤ} {reason : ExitReason}
    {st2 : TraderState}
    (h : close_position cfg oracle now st position cents reason = (st2, false)) :
    st2 = st := by
  simp only [close_position] at h
  split_ifs at h
  all_goals
    injection h with h1 h2
    first
      | exact h1.symm
      | exact Bool.noConfusion h2

/-- Characterization of `check_exits` over a single open position: the
position is retained (state unchanged) unless its quote exists, a trigger
matches and the exit order succeeds. -/
theorem check_exits_single (cfg : TraderConfig) (oracle : ClientOracle) (now : ℚ)
    (signals : String → Option AlphaSignal) (quotes : List MarketQuote)
    (st : TraderState) (position : Position) (hpos : st.positions = [position]) :
    check_exits cfg oracle now signals quotes st =
      match quote_lookup quotes position.ticker with
      | none => (st, 0)
      | some q =>
        match exit_decision cfg now signals q position with
        | none => (st, 0)
        | some (cents, reason) =>
          if (close_position cfg oracle now st position cents reason).2 then
            ({ (close_position cfg oracle now st position cents reason).1 with positions := [] }, 1)
          else (st, 0) := by
  have heta : { st with positions := [position] } = st := by
    rw [← hpos]
  unfold check_exits
  rw [hpos]
  simp only [List.isEmpty_cons, Bool.false_eq_true, if_false, List.foldl_cons, List.foldl_nil]
  rcases hlk : quote_lookup quotes position.ticker with _ | q
  · dsimp only
    simpa using heta
  dsimp only
  rcases hdec : exit_decision cfg now signals q position with _ | ⟨cents, reason⟩
  · dsimp only
    simpa using heta
  dsimp only
  rcases hclose : close_position cfg oracle now st position cents reason with ⟨st2, ok⟩
  rcases ok with _ | _
  · have hst2 : st2 = st := close_position_false_eq hclose
    subst hst2
    dsimp only
    simpa using heta
  · simp

/-- Failure form of `close_position`: a failed exit-order submission leaves
the state exactly as it was. -/
theorem close_position_failed (cfg : TraderConfig) (oracle : ClientOracle) (now : ℚ)
    (st : TraderState) (position : Position) (cents : ℤ) (reason : ExitReason)
    (hsubmit : (submit_order cfg oracle "sell" position.ticker position.side position.count).1
      = false) :
    close_position cfg oracle now st position cents reason = (st, false) := by
  simp [close_position, hsubmit]

/-- C9: if the exit-order submission for an open position fails, the close
attempt leaves the engine state exactly unchanged — the position stays in
the open list and the closed-trade list, total exposure, total PnL and
paper cash are exactly as before — so the exit is retried on a later
cycle. -/
theorem failed_exit_preserves_state (cfg : TraderConfig) (oracle : ClientOracle) (now : ℚ)
    (st : TraderState) (position : Position) (cents : ℤ) (reason : ExitReason)
    (signals : String → Option AlphaSignal) (quotes : List MarketQuote)
    (hsubmit : (submit_order cfg oracle "sell" position.ticker position.side position.count).1
      = false) :
    close_position cfg oracle now st position cents reason = (st, false) ∧
    (st.positions = [position] →
      check_exits cfg oracle now signals quotes st = (st, 0)) := by
  refine ⟨close_position_failed cfg oracle now st position cents reason hsubmit, ?_⟩
  intro hpos
  rw [check_exits_single cfg oracle now signals quotes st position hpos]
  rcases quote_lookup quotes position.ticker with _ | q
  · rfl
  dsimp only
  rcases exit_decision cfg now signals q position with _ | ⟨c2, r2⟩
  · rfl
  dsimp only
  rw [close_position_failed cfg oracle now st position c2 r2 hsubmit]
  simp

/-- Fixture: a live-mode configuration (otherwise `cfg0`), under which an
unauthenticated client makes every order submission fail. -/
def cfg_live : TraderConfig := { cfg0 with paper_mode := false }

/-- Fixture: an unauthenticated client oracle. -/
def oracle_unauth : ClientOracle := {
  authenticated := false, balance := 25000,
  create_order := fun _ _ _ _ => (true, "live-1"),
  next_order_id := "paper-1", next_position_id := "pos-1" }

/-- Fixture: a paper-mode client oracle. -/
def oracle0 : ClientOracle := {
  authenticated := true, balance := 25000,
  create_order := fun _ _ _ _ => (true, "live-1"),
  next_order_id := "paper-1", next_position_id := "pos-1" }

/-- Fixture: an open position, 10 contracts at 50¢, opened at time 0. -/
def position_flat : Position := {
  position_id := "pos-0", ticker := "KXTEST-EDGE", side := Side.yes, count := 10,
  entry_price_cents := 50, entry_edge := 47/1000, entry_gross_edge := 7/100,
  entry_cost_estimate := 23/1000, entry_fair_yes_probability := 62/100,
  entry_win_probability := 62/100, signal_confidence := 85/100,
  opened_at := some 0, notional_cents := 500, source := "unit", order_id := "order-0" }

/-- Fixture: a quote marking `position_flat` exactly at its entry price. -/
def quote_flat : MarketQuote := {
  ticker := "KXTEST-EDGE", title := "Edge test", category := "test", volume := 1000,
  yes_bid := some (50/100), yes_ask := some (52/100),
  no_bid := some (48/100), no_ask := some (50/100) }

/-- Fixture: engine state holding only `position_flat`. -/
def state_flat : TraderState := {
  current_day := "2025-01-01", daily_trades := 0, positions := [position_flat],
  closed_positions := [], total_exposure_cents := 500, total_pnl_cents := 0,
  paper_cash_cents := 24500 }

/-- Fixture: the empty signal map. -/
def no_signals : String → Option AlphaSignal := fun _ => none

unseal Rat.mul Rat.inv Rat.add Rat.sub in
/-- Witness for C9: in live mode with an unauthenticated client the exit
order fails, and the engine state survives the close attempt unchanged. -/
theorem failed_exit_preserves_state_witness :
    close_position cfg_live oracle_unauth 60 state_flat position_flat 50
        ExitReason.takeProfit = (state_flat, false) ∧
    check_exits cfg_live oracle_unauth 60 no_signals [quote_flat] state_flat =
      (state_flat, 0) := by
  have h := failed_exit_preserves_state cfg_live oracle_unauth 60 state_flat position_flat 50
    ExitReason.takeProfit no_signals [quote_flat] (by decide)
  exact ⟨h.1, h.2 (by decide)⟩

/-- C3: during exit evaluation of an open position with a known quote and a
valid exit price, the four exit triggers are tested in the fixed priority
order take-profit, stop-loss, time-stop, edge-reversal, and the first
matching trigger is the recorded reason; in particular a position whose
`pnl_pct` satisfies the take-profit and stop-loss thresholds
simultaneously records take-profit; a position with no quote or with no
matching trigger remains open, with the state unchanged. -/
theorem exit_priority_order (cfg : TraderConfig) (oracle : ClientOracle) (now : ℚ)
    (signals : String → Option AlphaSignal) (quotes : List MarketQuote)
    (st : TraderState) (position : Position) (quote : MarketQuote) (exit_probability : ℚ)
    (hq : quote.exit_price position.side = some exit_probability) :
    (exit_decision cfg now signals quote position =
        some (probability_to_cents exit_probability, ExitReason.takeProfit) ↔
      cfg.take_profit_pct ≤ mark_pnl_pct position (probability_to_cents exit_probability)) ∧
    (exit_decision cfg now signals quote position =
        some (probability_to_cents exit_probability, ExitReason.stopLoss) ↔
      ¬cfg.take_profit_pct ≤ mark_pnl_pct position (probability_to_cents exit_probability) ∧
      mark_pnl_pct position (probability_to_cents exit_probability) ≤ -cfg.stop_loss_pct) ∧
    (exit_decision cfg now signals quote position =
        some (probability_to_cents exit_probability, ExitReason.timeStop) ↔
      ¬cfg.take_profit_pct ≤ mark_pnl_pct position (probability_to_cents exit_probability) ∧
      ¬mark_pnl_pct position (probability_to_cents exit_probability) ≤ -cfg.stop_loss_pct ∧
      (cfg.max_holding_minutes : ℚ) ≤ holding_minutes_of now position) ∧
    (exit_decision cfg now signals quote position =
        some (probability_to_cents exit_probability, ExitReason.edgeReversal) ↔
      ¬cfg.take_profit_pct ≤ mark_pnl_pct position (probability_to_cents exit_probability) ∧
      ¬mark_pnl_pct position (probability_to_cents exit_probability) ≤ -cfg.stop_loss_pct ∧
      ¬(cfg.max_holding_minutes : ℚ) ≤ holding_minutes_of now position ∧
      (match current_edge_for_position position quote signals with
       | some edge_now => edge_now < -(cfg.min_edge / 2)
       | none => False : Prop)) ∧
    (exit_decision cfg now signals quote position = none ↔
      ¬cfg.take_profit_pct ≤ mark_pnl_pct position (probability_to_cents exit_probability) ∧
      ¬mark_pnl_pct position (probability_to_cents exit_probability) ≤ -cfg.stop_loss_pct ∧
      ¬(cfg.max_holding_minutes : ℚ) ≤ holding_minutes_of now position ∧
      ¬(match current_edge_for_position position quote signals with
         | some edge_now => edge_now < -(cfg.min_edge / 2)
         | none => False : Prop)) ∧
    (st.positions = [position] →
      (quote_lookup quotes position.ticker = none →
        check_exits cfg oracle now signals quotes st = (st, 0)) ∧
      (quote_lookup quotes position.ticker = some quote →
        exit_decision cfg now signals quote position = none →
        check_exits cfg oracle now signals quotes st = (st, 0))) := by
  have hdec : exit_decision cfg now signals quote position =
      (if cfg.take_profit_pct ≤ mark_pnl_pct position (probability_to_cents exit_probability)
        then some (probability_to_cents exit_probability, ExitReason.takeProfit)
       else if mark_pnl_pct position (probability_to_cents exit_probability) ≤
          -cfg.stop_loss_pct
        then some (probability_to_cents exit_probability, ExitReason.stopLoss)
       else if (cfg.max_holding_minutes : ℚ) ≤ holding_minutes_of now position
        then some (probability_to_cents exit_probability, ExitReason.timeStop)
       else
        match current_edge_for_position position quote signals with
        | some edge_now =>
          if edge_now < -(cfg.min_edge / 2)
            then some (probability_to_cents exit_probability, ExitReason.edgeReversal)
          else none
        | none => none) := by
    unfold exit_decision
    rw [hq]
  refine ⟨?_, ?_, ?_, ?_, ?_, ?_⟩
  pick_goal 6
  · intro hpos
    constructor
    · intro hlk
      rw [check_exits_single cfg oracle now signals quotes st position hpos, hlk]
    · intro hlk hnone
      rw [check_exits_single cfg oracle now signals quotes st position hpos, hlk]
      dsimp only
      rw [hnone]
  all_goals
    rw [hdec]
    split_ifs with t1 t2 t3 <;>
      rcases he : current_edge_for_position position quote signals with _ | e <;>
      (try simp only [he]) <;>
      (try split_ifs with t4) <;>
      simp_all

/-- Fixture: a contrived configuration whose take-profit threshold is
negative, making take-profit and stop-loss simultaneously satisfiable. -/
def cfg_contrived : TraderConfig := { cfg0 with take_profit_pct := -(5/10), stop_loss_pct := 3/10 }

/-- Fixture: a quote marking `position_flat` at 30¢ (a -40% return). -/
def quote_down : MarketQuote := {
  ticker := "KXTEST-EDGE", title := "Edge test", category := "test", volume := 1000,
  yes_bid := some (30/100), yes_ask := some (32/100),
  no_bid := some (68/100), no_ask := some (70/100) }

unseal Rat.mul Rat.inv Rat.add Rat.sub in
/-- Witness for C3: with a contrived configuration whose take-profit and
stop-loss thresholds are simultaneously satisfiable (take_profit = -0.5,
stop_loss = 0.3, mark-to-market return -0.4), the recorded exit reason is
take-profit — the first trigger in the priority order. -/
theorem exit_priority_order_witness :
    cfg_contrived.take_profit_pct ≤ mark_pnl_pct position_flat 30 ∧
    mark_pnl_pct position_flat 30 ≤ -cfg_contrived.stop_loss_pct ∧
    exit_decision cfg_contrived 0 no_signals quote_down position_flat =
      some (30, ExitReason.takeProfit) := by
  have h := (exit_priority_order cfg_contrived oracle0 0 no_signals [] state_flat
    position_flat quote_down (30/100) (by decide)).1
  have hcents : probability_to_cents (30/100 : ℚ) = 30 := by decide
  rw [hcents] at h
  exact ⟨by decide, by decide, h.mpr (by decide)⟩



/-! ### C4 — replay determinism (wall-clock dependence) -/

unseal Rat.mul Rat.inv Rat.add Rat.sub in
/-- C4 evidence (code bug): the exit decision path depends on the engine
wall clock, not on replayed snapshot timestamps.  For identical market
data, signals and state, the same position is held at wall clock 0 but
time-stopped at wall clock 14400s (240 minutes after its wall-clock
`opened_at`), changing the closed-trade count — so two replays of the
same snapshot sequence run at different speeds can diverge, contradicting
the determinism contract. -/
theorem exit_path_depends_on_wall_clock :
    exit_decision cfg0 0 no_signals quote_flat position_flat = none ∧
    exit_decision cfg0 14400 no_signals quote_flat position_flat =
      some (50, ExitReason.timeStop) ∧
    check_exits cfg0 oracle0 0 no_signals [quote_flat] state_flat = (state_flat, 0) ∧
    (check_exits cfg0 oracle0 14400 no_signals [quote_flat] state_flat).2 = 1 ∧
    (check_exits cfg0 oracle0 14400 no_signals [quote_flat] state_flat).1.positions = [] := by
  decide

/-! ### C5 — cycle structure: exits and unconditional persistence -/

/-- C5 (amended): every cycle persists the final state unconditionally
(each return path writes exactly one `save_state` snapshot of the state it
ends with), but the exit scan runs only when the loaded signal map is
non-empty — a cycle with an empty signal map persists and returns without
evaluating exits. -/
theorem run_cycle_persists_and_gates_exits (cfg : TraderConfig) (env : CycleEnv)
    (st : TraderState) :
    (run_cycle cfg env st).persisted = save_state (run_cycle cfg env st).state ∧
    (run_cycle cfg env st).exits_evaluated = !env.signals.isEmpty := by
  unfold run_cycle
  by_cases h : env.signals.isEmpty = true
  · simp [h]
  · simp only [Bool.not_eq_true] at h
    simp only [h, Bool.false_eq_true, if_false, Bool.not_false]
    rcases scan_candidates cfg (signal_lookup env.signals) env.quotes
        (check_exits cfg env.oracle env.now (signal_lookup env.signals) env.quotes
          (reset_daily_counter_if_needed env.today st)).1 with _ | ⟨top, rest⟩
    · exact ⟨rfl, rfl⟩
    · exact ⟨rfl, rfl⟩

/-- Fixture: a quote marking `position_flat` at 70¢, a +40% return that
satisfies the 20% take-profit trigger. -/
def quote_up : MarketQuote := {
  ticker := "KXTEST-EDGE", title := "Edge test", category := "test", volume := 1000,
  yes_bid := some (70/100), yes_ask := some (72/100),
  no_bid := some (28/100), no_ask := some (30/100) }

/-- Fixture: a cycle environment with an empty signal map whose market
list still quotes the open position. -/
def env_empty_signals : CycleEnv := {
  today := "2025-01-01", now := 60, signals := [], quotes := [quote_up],
  oracle := oracle0 }

unseal Rat.mul Rat.inv Rat.add Rat.sub in
/-- Counterexample for C5 as frozen: with an empty signal map the cycle
persists state but never runs exit evaluation, even though the open
position's take-profit trigger fires on the available quote — the claim
says exit evaluation runs over all open positions in every cycle. -/
theorem run_cycle_skips_exits_counterexample :
    env_empty_signals.signals.isEmpty = true ∧
    exit_decision cfg0 env_empty_signals.now (signal_lookup env_empty_signals.signals)
      quote_up position_flat = some (70, ExitReason.takeProfit) ∧
    (run_cycle cfg0 env_empty_signals state_flat).exits_evaluated = false ∧
    (run_cycle cfg0 env_empty_signals state_flat).state.positions = [position_flat] ∧
    (run_cycle cfg0 env_empty_signals state_flat).state.closed_positions = [] := by
  decide



/-! ### C2 — the composite go-live gate -/

/-- Per-window form of the holdout check: for a positive window size, the
check passes exactly when there are at least `window` trades and the
trailing-window expectancy is positive. -/
theorem holdout_check_iff (closed_positions : List ClosedTrade) (w : ℤ) (hw : 0 < w) :
    ((match compute_trailing_expectancy closed_positions w with
      | some v => decide (0 < v)
      | none => false) = true) ↔
    (w ≤ (closed_positions.length : ℤ) ∧
      0 < (compute_performance_metrics
        (closed_positions.drop (closed_positions.length - w.toNat))).expectancy_pct) := by
  unfold compute_trailing_expectancy
  rw [if_neg (not_le.mpr hw)]
  by_cases hlen : (closed_positions.length : ℤ) < w
  · rw [if_pos hlen]
    simp only [Bool.false_eq_true, false_iff, not_and]
    intro h1
    exact absurd hlen (not_lt.mpr h1)
  · rw [if_neg hlen]
    simp only [decide_eq_true_eq]
    exact (and_iff_right (not_lt.mp hlen)).symm

/-- C2: the go-live gate passes exactly when every individual check passes:
trade count ≥ minimum, expectancy strictly above the minimum, profit
factor ≥ minimum, drawdown share of bankroll ≤ maximum, cost-coverage
ratio ≥ minimum, every configured (positive) holdout window has at least
`window` trades with positive trailing expectancy, and the single-ticker
share of absolute PnL is ≤ the maximum share.  Any one failing check —
in particular an excessive ticker concentration — fails the whole gate. -/
theorem go_live_gate_iff (closed_positions : List ClosedTrade)
    (paper_bankroll : ℚ) (min_trades : ℤ)
    (min_expectancy min_profit_factor max_drawdown min_cost_coverage : ℚ)
    (holdout_windows : List ℤ)
    (max_concentration_share fee_per_contract_prob slippage_spread_factor : ℚ)
    (hw : ∀ w ∈ holdout_windows, 0 < w) :
    ((evaluate_go_live_gates closed_positions paper_bankroll min_trades min_expectancy
        min_profit_factor max_drawdown min_cost_coverage holdout_windows
        max_concentration_share fee_per_contract_prob slippage_spread_factor).go_live = true) ↔
      (min_trades ≤ ((compute_performance_metrics closed_positions).trades : ℤ) ∧
       min_expectancy < (compute_performance_metrics closed_positions).expectancy_pct ∧
       min_profit_factor ≤ (compute_performance_metrics closed_positions).profit_factor ∧
       (compute_performance_metrics closed_positions).max_drawdown_cents /
           max (paper_bankroll * 100) 1 * 100 ≤ max_drawdown ∧
       min_cost_coverage ≤ (compute_execution_cost_summary closed_positions
           fee_per_contract_prob slippage_spread_factor).cost_coverage_ratio ∧
       (∀ w ∈ holdout_windows, w ≤ (closed_positions.length : ℤ) ∧
         0 < (compute_performance_metrics
           (closed_positions.drop (closed_positions.length - w.toNat))).expectancy_pct) ∧
       (compute_ticker_concentration closed_positions).max_share_of_abs_pnl ≤
         max_concentration_share) := by
  have hh := fun w hwmem => holdout_check_iff closed_positions w (hw w hwmem)
  unfold evaluate_go_live_gates
  simp only [List.all_append, List.all_cons, List.all_nil, List.all_map, Bool.and_eq_true,
    decide_eq_true_eq, and_true, List.all_eq_true, Function.comp]
  constructor
  · rintro ⟨⟨⟨h1, h2, h3, h4, h5⟩, h6⟩, h7⟩
    refine ⟨h1, h2, h3, h4, h5, ?_, h7⟩
    intro w hwm
    exact (hh w hwm).mp (h6 _ (List.mem_map_of_mem _ hwm))
  · rintro ⟨h1, h2, h3, h4, h5, h6, h7⟩
    refine ⟨⟨⟨h1, h2, h3, h4, h5⟩, ?_⟩, h7⟩
    intro x hx
    obtain ⟨w, hwm, rfl⟩ := List.mem_map.mp hx
    exact (hh w hwm).mpr (h6 w hwm)

/-- Fixture: winning trade on ticker AAA (+1000¢ on 1000¢ notional). -/
def trade_a1 : ClosedTrade := {
  ticker := "AAA", side := Side.yes, count := 10, entry_price_cents := 50,
  exit_price_cents := 60, notional_cents := 1000, pnl_cents := 1000, pnl_pct := 1,
  entry_edge := some (47/1000), entry_gross_edge := some (7/100),
  entry_cost_estimate := some (23/1000), entry_fair_yes_probability := 62/100,
  entry_win_probability := 62/100, signal_confidence := 85/100,
  opened_at := some 0, closed_at := some 600, exit_reason := ExitReason.takeProfit,
  entry_order_id := some "o1", exit_order_id := some "o2" }

/-- Fixture: second winning trade on ticker AAA. -/
def trade_a2 : ClosedTrade := { trade_a1 with opened_at := some 700, closed_at := some 1300 }

/-- Fixture: small winning trade on ticker BBB (+100¢ on 1000¢ notional). -/
def trade_b1 : ClosedTrade := {
  trade_a1 with
  ticker := "BBB"
  pnl_cents := 100
  pnl_pct := 1/10
  opened_at := some 1400
  closed_at := some 2000 }

/-- Fixture: a closed-trade history whose absolute PnL is concentrated
(2000 of 2100¢) on ticker AAA. -/
def gate_trades : List ClosedTrade := [trade_a1, trade_a2, trade_b1]

unseal Rat.mul Rat.inv Rat.add Rat.sub in
/-- Witness for C2: on `gate_trades` with thresholds (≥3 trades,
expectancy > 0, profit factor ≥ 1.2, drawdown ≤ 10% of a $250 bankroll,
coverage ≥ 0.8, holdout window 2, concentration ≤ 0.25) every check except
concentration passes — AAA carries 2000/2100 of absolute PnL — and the
gate correctly refuses to go live. -/
theorem go_live_gate_iff_witness :
    (∀ w ∈ ([2] : List ℤ), 0 < w) ∧
    (((evaluate_go_live_gates gate_trades 250 3 0 (12/10) 10 (8/10) [2] (25/100)
        (8/1000) (35/100)).go_live = true) ↔
      (3 ≤ ((compute_performance_metrics gate_trades).trades : ℤ) ∧
       0 < (compute_performance_metrics gate_trades).expectancy_pct ∧
       12/10 ≤ (compute_performance_metrics gate_trades).profit_factor ∧
       (compute_performance_metrics gate_trades).max_drawdown_cents /
           max ((250 : ℚ) * 100) 1 * 100 ≤ 10 ∧
       8/10 ≤ (compute_execution_cost_summary gate_trades
           (8/1000) (35/100)).cost_coverage_ratio ∧
       (∀ w ∈ ([2] : List ℤ), w ≤ (gate_trades.length : ℤ) ∧
         0 < (compute_performance_metrics
           (gate_trades.drop (gate_trades.length - w.toNat))).expectancy_pct) ∧
       (compute_ticker_concentration gate_trades).max_share_of_abs_pnl ≤ 25/100)) ∧
    (25/100 : ℚ) < (compute_ticker_concentration gate_trades).max_share_of_abs_pnl ∧
    (evaluate_go_live_gates gate_trades 250 3 0 (12/10) 10 (8/10) [2] (25/100)
        (8/1000) (35/100)).go_live = false :=
  ⟨by decide,
   go_live_gate_iff gate_trades 250 3 0 (12/10) 10 (8/10) [2] (25/100) (8/1000) (35/100)
     (by decide),
   by decide, by decide⟩



/-! ### C7 — piecewise-linear calibration -/

/-- Strict order on calibration bins by raw probability. -/
def raw_lt (a b : ℚ × ℚ) : Prop := a.1 < b.1

instance : DecidableRel raw_lt := fun _a _b =>
  inferInstanceAs (Decidable (_ < _))

instance : IsTrans (ℚ × ℚ) raw_lt := ⟨fun _ _ _ => lt_trans⟩

/-- Clamping is the identity on bins already inside [0,1]². -/
theorem clamp_map_id {bins : List (ℚ × ℚ)}
    (hrange : ∀ rc ∈ bins, 0 ≤ rc.1 ∧ rc.1 ≤ 1 ∧ 0 ≤ rc.2 ∧ rc.2 ≤ 1) :
    bins.map (fun rc => (clamp_probability rc.1, clamp_probability rc.2)) = bins := by
  induction bins with
  | nil => rfl
  | cons hd tl ih =>
    obtain ⟨h1, h2, h3, h4⟩ := hrange hd (List.mem_cons_self hd tl)
    rw [List.map_cons, clamp_probability_eq_self h1 h2, clamp_probability_eq_self h3 h4,
      ih fun rc hm => hrange rc (List.mem_cons_of_mem hd hm)]

/-- A strictly-increasing bin list is sorted for the lexicographic order
Python `sorted` uses, so sorting it is the identity. -/
theorem sorted_pair_le_of_chain {bins : List (ℚ × ℚ)}
    (h : List.Chain' raw_lt bins) : List.Sorted pair_le bins :=
  (List.chain'_iff_pairwise.mp h).imp fun hab => Or.inl hab

/-- Every element's raw value is bounded by the structural last element's. -/
theorem le_getLastD_of_chain :
    ∀ (b0 : ℚ × ℚ) (rest : List (ℚ × ℚ)), List.Chain' raw_lt (b0 :: rest) →
      ∀ x ∈ b0 :: rest, x.1 ≤ ((b0 :: rest).getLastD b0).1 := by
  intro b0 rest
  induction rest generalizing b0 with
  | nil =>
    intro _ x hx
    rcases List.mem_cons.mp hx with rfl | hx'
    · exact le_refl _
    · exact absurd hx' (List.not_mem_nil _)
  | cons hd tl ih =>
    intro hchain x hx
    have hrec := ih hd hchain.tail
    rw [List.getLastD_cons, List.getLastD_cons]
    have hlast : ((hd :: tl).getLastD hd).1 = (tl.getLastD hd).1 := by
      rw [List.getLastD_cons]
    rcases List.mem_cons.mp hx with rfl | hx'
    · have h1 : raw_lt x hd := (List.chain'_cons.mp hchain).1
      exact le_of_lt (lt_of_lt_of_le h1 (hlast ▸ hrec hd (List.mem_cons_self hd tl)))
    · exact hlast ▸ hrec x hx'

/-- Distinct raw values identify bins in a strictly-increasing list. -/
theorem eq_of_raw_eq {bins : List (ℚ × ℚ)} (hpw : List.Pairwise raw_lt bins) :
    ∀ x ∈ bins, ∀ y ∈ bins, x.1 = y.1 → x = y := by
  induction bins with
  | nil => intro x hx; exact absurd hx (List.not_mem_nil _)
  | cons hd tl ih =>
    intro x hx y hy hxy
    rcases List.mem_cons.mp hx with rfl | hx' <;> rcases List.mem_cons.mp hy with rfl | hy'
    · rfl
    · exact absurd hxy (ne_of_lt (List.rel_of_pairwise_cons hpw hy'))
    · exact absurd hxy.symm (ne_of_lt (List.rel_of_pairwise_cons hpw hx'))
    · exact ih (List.pairwise_cons.mp hpw).2 x hx' y hy' hxy

/-- The interpolation loop lands exactly on a bin's calibrated value when
the probe equals that bin's raw value. -/
theorem interp_loop_at_raw (p c : ℚ) (h0 : 0 ≤ c) (h1 : c ≤ 1) :
    ∀ (left : ℚ × ℚ) (rest : List (ℚ × ℚ)),
      List.Chain' raw_lt (left :: rest) →
      (p, c) ∈ rest → left.1 < p →
      calibration_interp_loop p left rest = c := by
  intro left rest
  induction rest generalizing left with
  | nil =>
    intro _ hm
    exact absurd hm (List.not_mem_nil _)
  | cons hd tl ih =>
    intro hchain hm hlp
    rcases List.mem_cons.mp hm with heq | hm'
    · subst heq
      simp only [calibration_interp_loop]
      rw [if_pos ⟨le_of_lt hlp, le_refl p⟩]
      by_cases hspan : p - left.1 ≤ 1 / 1000000000
      · rw [if_pos hspan]
      · rw [if_neg hspan]
        have hne : p - left.1 ≠ 0 := sub_ne_zero.mpr (ne_of_gt hlp)
        have hval : left.2 + (p - left.1) / (p - left.1) * (c - left.2) = c := by
          rw [div_self hne]
          ring
        rw [hval, clamp_probability_eq_self h0 h1]
    · have hpair := List.chain'_iff_pairwise.mp hchain
      have hdp : raw_lt hd (p, c) :=
        List.rel_of_pairwise_cons (List.pairwise_cons.mp hpair).2 hm'
      simp only [calibration_interp_loop]
      rw [if_neg fun hand => absurd hand.2 (not_le.mpr hdp)]
      exact ih hd hchain.tail hm' hdp

/-- The interpolation loop, probed strictly inside an adjacent-bin
interval, returns the linear interpolation for that interval. -/
theorem interp_loop_between (p : ℚ) :
    ∀ (left : ℚ × ℚ) (rest pre post : List (ℚ × ℚ)) (l r : ℚ × ℚ),
      List.Chain' raw_lt (left :: rest) →
      left :: rest = pre ++ l :: r :: post →
      l.1 < p → p < r.1 →
      calibration_interp_loop p left rest =
        (if r.1 - l.1 ≤ 1 / 1000000000 then r.2
         else clamp_probability (l.2 + (p - l.1) / (r.1 - l.1) * (r.2 - l.2))) := by
  intro left rest
  induction rest generalizing left with
  | nil =>
    intro pre post l r _ heq _ _
    have hlen := congrArg List.length heq
    simp [List.length_append] at hlen
    omega
  | cons hd tl ih =>
    intro pre post l r hchain heq hlp hpr
    cases pre with
    | nil =>
      simp only [List.nil_append] at heq
      injection heq with h1 h2
      injection h2 with h21 h22
      subst h1
      subst h21
      simp only [calibration_interp_loop]
      rw [if_pos ⟨le_of_lt hlp, le_of_lt hpr⟩]
    | cons a pre2 =>
      simp only [List.cons_append] at heq
      injection heq with h1 h2
      have hll : l ∈ hd :: tl := by
        rw [h2]
        cases pre2 with
        | nil => exact List.mem_cons_self _ _
        | cons b pre3 =>
          exact List.mem_cons_of_mem _ (List.mem_append_right _ (List.mem_cons_self _ _))
      have hmem : hd.1 ≤ l.1 := by
        rcases List.mem_cons.mp hll with rfl | hl'
        · exact le_refl _
        · exact le_of_lt (List.rel_of_pairwise_cons
            (List.pairwise_cons.mp (List.chain'_iff_pairwise.mp hchain)).2 hl')
      simp only [calibration_interp_loop]
      rw [if_neg fun hand => absurd hand.2 (not_le.mpr (lt_of_le_of_lt hmem hlp))]
      exact ih hd pre2 post l r hchain.tail h2 hlp hpr

unseal Rat.mul Rat.inv Rat.add Rat.sub in
/-- Counterexample for C7 as frozen: for the sorted bin list
[(1/4, 1/2), (3/4, 1/2)] and p = 1/2 strictly between the two raw values,
the interpolated result equals both calibrated values (1/2), so it does
not lie strictly between them — the strict-betweenness clause fails when
adjacent bins share a calibrated value. -/
theorem calibration_between_counterexample :
    ((1 : ℚ)/4 < 1/2 ∧ (1 : ℚ)/2 < 3/4) ∧
    apply_probability_calibration (1/2) [(1/4, 1/2), (3/4, 1/2)] = 1/2 ∧
    ¬(min ((1 : ℚ)/2) (1/2) <
        apply_probability_calibration (1/2) [(1/4, 1/2), (3/4, 1/2)] ∧
      apply_probability_calibration (1/2) [(1/4, 1/2), (3/4, 1/2)] <
        max ((1 : ℚ)/2) (1/2)) := by
  decide

/-- C7 (amended): over a strictly-increasing bin list inside [0,1]²,
`apply_probability_calibration` returns exactly the bin's calibrated value
at each bin's raw probability; strictly between two adjacent raw values
(with the raw gap above the 1e-9 degeneracy threshold) the result lies
between the two calibrated values — strictly between them when they
differ, and equal to the common value when they coincide. -/
theorem apply_probability_calibration_piecewise (bins : List (ℚ × ℚ))
    (hsorted : List.Chain' raw_lt bins)
    (hrange : ∀ rc ∈ bins, 0 ≤ rc.1 ∧ rc.1 ≤ 1 ∧ 0 ≤ rc.2 ∧ rc.2 ≤ 1) :
    (∀ rc ∈ bins, apply_probability_calibration rc.1 bins = rc.2) ∧
    (∀ (pre post : List (ℚ × ℚ)) (l r : ℚ × ℚ), bins = pre ++ l :: r :: post →
      ∀ p : ℚ, l.1 < p → p < r.1 → 1 / 1000000000 < r.1 - l.1 →
        (min l.2 r.2 ≤ apply_probability_calibration p bins ∧
         apply_probability_calibration p bins ≤ max l.2 r.2) ∧
        (l.2 = r.2 → apply_probability_calibration p bins = l.2) ∧
        (l.2 ≠ r.2 →
          min l.2 r.2 < apply_probability_calibration p bins ∧
          apply_probability_calibration p bins < max l.2 r.2)) := by
  have hpw := List.chain'_iff_pairwise.mp hsorted
  have hreduce : ∀ (b0 : ℚ × ℚ) (rest : List (ℚ × ℚ)), bins = b0 :: rest →
      ∀ p : ℚ, clamp_probability p = p →
      apply_probability_calibration p bins =
        (if p ≤ b0.1 then b0.2
         else if ((b0 :: rest).getLastD b0).1 ≤ p then ((b0 :: rest).getLastD b0).2
         else calibration_interp_loop p b0 rest) := by
    intro b0 rest hbins p hp
    subst hbins
    show apply_probability_calibration p (b0 :: rest) = _
    unfold apply_probability_calibration
    rw [clamp_map_id hrange,
      List.Sorted.insertionSort_eq (sorted_pair_le_of_chain hsorted), hp]
  constructor
  · -- at a bin's raw value
    intro rc hmem
    rcases hbins : bins with _ | ⟨b0, rest⟩
    · rw [hbins] at hmem
      exact absurd hmem (List.not_mem_nil _)
    rw [← hbins]
    obtain ⟨hr0, hr1, hc0, hc1⟩ := hrange rc hmem
    rw [hreduce b0 rest hbins rc.1 (clamp_probability_eq_self hr0 hr1)]
    rcases List.mem_cons.mp (hbins ▸ hmem) with rfl | hmem'
    · rw [if_pos (le_refl _)]
    · have hb0 : b0.1 < rc.1 := by
        have := List.rel_of_pairwise_cons (hbins ▸ hpw) hmem'
        exact this
      rw [if_neg (not_le.mpr hb0)]
      set L := ((b0 :: rest).getLastD b0) with hL
      have hLmem : L ∈ b0 :: rest := by
        rw [hL, List.getLastD_cons]
        exact List.getLastD_mem_cons rest b0
      have hrcle : rc.1 ≤ L.1 :=
        le_getLastD_of_chain b0 rest (hbins ▸ hsorted) rc (hbins ▸ hmem)
      by_cases hLle : L.1 ≤ rc.1
      · have : rc = L := eq_of_raw_eq (hbins ▸ hpw) rc (hbins ▸ hmem) L hLmem
          (le_antisymm hrcle hLle)
        rw [if_pos hLle, ← this]
      · rw [if_neg hLle]
        have : (rc.1, rc.2) ∈ rest := by
          rw [Prod.mk.eta]
          exact hmem'
        exact interp_loop_at_raw rc.1 rc.2 hc0 hc1 b0 rest (hbins ▸ hsorted) this hb0
  · -- strictly between two adjacent bins
    intro pre post l r heq p hlp hpr hspan
    have hlmem : l ∈ bins := by
      rw [heq]
      exact List.mem_append_right _ (List.mem_cons_self _ _)
    have hrmem : r ∈ bins := by
      rw [heq]
      exact List.mem_append_right _ (List.mem_cons_of_mem _ (List.mem_cons_self _ _))
    obtain ⟨hl0, hl1, hlc0, hlc1⟩ := hrange l hlmem
    obtain ⟨hr0, hr1, hrc0, hrc1⟩ := hrange r hrmem
    have hp0 : 0 ≤ p := le_trans hl0 (le_of_lt hlp)
    have hp1 : p ≤ 1 := le_trans (le_of_lt hpr) hr1
    rcases hbins : bins with _ | ⟨b0, rest⟩
    · rw [hbins] at heq
      exact absurd heq.symm (List.append_ne_nil_of_right_ne_nil pre (by simp))
    rw [← hbins]
    rw [hreduce b0 rest hbins p (clamp_probability_eq_self hp0 hp1)]
    have hhead : b0.1 ≤ l.1 := by
      rcases List.mem_cons.mp (hbins ▸ hlmem) with rfl | hl'
      · exact le_refl _
      · have hpw2 : List.Pairwise raw_lt (b0 :: rest) := hbins ▸ hpw
        have : raw_lt b0 l := List.rel_of_pairwise_cons hpw2 hl'
        exact le_of_lt this
    rw [if_neg (not_le.mpr (lt_of_le_of_lt hhead hlp))]
    have hrL : r.1 ≤ ((b0 :: rest).getLastD b0).1 :=
      le_getLastD_of_chain b0 rest (hbins ▸ hsorted) r (hbins ▸ hrmem)
    rw [if_neg (not_le.mpr (lt_of_lt_of_le hpr hrL))]
    rw [interp_loop_between p b0 rest pre post l r (hbins ▸ hsorted) (hbins ▸ heq) hlp hpr]
    rw [if_neg (not_le.mpr hspan)]
    have hden : (0 : ℚ) < r.1 - l.1 := lt_trans (by norm_num) hspan
    have hw0 : 0 < (p - l.1) / (r.1 - l.1) := div_pos (sub_pos.mpr hlp) hden
    have hw1 : (p - l.1) / (r.1 - l.1) < 1 :=
      (div_lt_one hden).mpr (sub_lt_sub_right hpr l.1)
    set w := (p - l.1) / (r.1 - l.1) with hwdef
    have hlow : min l.2 r.2 ≤ l.2 + w * (r.2 - l.2) := by
      rcases le_total l.2 r.2 with hc | hc
      · rw [min_eq_left hc]
        nlinarith
      · rw [min_eq_right hc]
        nlinarith
    have hhigh : l.2 + w * (r.2 - l.2) ≤ max l.2 r.2 := by
      rcases le_total l.2 r.2 with hc | hc
      · rw [max_eq_right hc]
        nlinarith
      · rw [max_eq_left hc]
        nlinarith
    have hv0 : 0 ≤ l.2 + w * (r.2 - l.2) := le_trans (le_min hlc0 hrc0) hlow
    have hv1 : l.2 + w * (r.2 - l.2) ≤ 1 := le_trans hhigh (max_le hlc1 hrc1)
    rw [clamp_probability_eq_self hv0 hv1]
    refine ⟨⟨hlow, hhigh⟩, ?_, ?_⟩
    · intro hceq
      rw [← hceq]
      ring
    · intro hcne
      rcases lt_or_gt_of_ne hcne with hc | hc
      · rw [min_eq_left (le_of_lt hc), max_eq_right (le_of_lt hc)]
        constructor <;> nlinarith
      · rw [min_eq_right (le_of_lt hc), max_eq_left (le_of_lt hc)]
        constructor <;> nlinarith

/-- Fixture: a two-bin calibration map with distinct calibrated values. -/
def demo_bins : List (ℚ × ℚ) := [(1/4, 2/10), (3/4, 8/10)]

unseal Rat.mul Rat.inv Rat.add Rat.sub in
/-- Witness for C7 (amended) on `demo_bins`: probing at the first bin's raw
value returns its calibrated value exactly, and probing at 1/2 (midway)
returns a value strictly between 0.2 and 0.8. -/
theorem apply_probability_calibration_piecewise_witness :
    apply_probability_calibration (1/4) demo_bins = 2/10 ∧
    (min ((2 : ℚ)/10) (8/10) < apply_probability_calibration (1/2) demo_bins ∧
      apply_probability_calibration (1/2) demo_bins < max ((2 : ℚ)/10) (8/10)) := by
  have h := apply_probability_calibration_piecewise demo_bins
    (by
      unfold demo_bins
      simp only [List.chain'_cons, List.chain'_singleton, and_true, raw_lt]
      norm_num)
    (by
      intro rc hrc
      unfold demo_bins at hrc
      rcases List.mem_cons.mp hrc with rfl | hrc2
      · norm_num
      rcases List.mem_cons.mp hrc2 with rfl | hrc3
      · norm_num
      · exact absurd hrc3 (List.not_mem_nil _))
  refine ⟨h.1 (1/4, 2/10) (by unfold demo_bins; exact List.mem_cons_self _ _), ?_⟩
  exact (h.2 [] [] (1/4, 2/10) (3/4, 8/10) rfl (1/2) (by norm_num) (by norm_num)
    (by norm_num)).2.2 (by norm_num)


end Kalshi
